import Mathlib

/-!
Shallow embedding of src/script.js of the visual-timer-app repository.

Clock readings (Date.now), durations and deadlines are integer milliseconds,
modelled as ℤ; the script only ever adds and subtracts them. The progress
fraction is the one exact division the script performs and is modelled in ℚ.
Each timer record carries an id standing for the identity of its DOM
element, which the script uses to correlate records with their visual
representation. DOM writes and the audio and log side effects are modelled
as emitted events.
-/

namespace VisualTimer

/-- Mirror of String(n).padStart(2, the zero digit) applied to the decimal
renderings in the script. -/
def padStart2 (s : String) : String :=
  if s.length < 2 then String.mk (List.replicate (2 - s.length) '0') ++ s else s

/-- Math.ceil applied to the exact quotient a / b, for a positive divisor b,
computed by integer floor division: the least integer that is greater than
or equal to a / b. The lemma mathCeilDiv_eq_ceil below checks this against
the mathematical ceiling. -/
def mathCeilDiv (a b : ℤ) : ℤ :=
  Int.fdiv (a + b - 1) b

/-- Rendering of a whole number of seconds as MM:SS, the second half of
formatTime in src/script.js: seconds is totalSeconds % 60 (JS remainder,
sign of the dividend), minutes is Math.floor(totalSeconds / 60), both zero
padded to two digits. -/
def mmssOfTotalSeconds (totalSeconds : ℤ) : String :=
  let seconds : ℤ := Int.tmod totalSeconds 60
  let minutes : ℤ := Int.fdiv totalSeconds 60
  padStart2 (toString minutes) ++ ":" ++ padStart2 (toString seconds)

/-- Mirror of formatTime in src/script.js: totalSeconds is computed as
Math.ceil((ms + 999) / 1000), then rendered as MM:SS. -/
def formatTime (ms : ℤ) : String :=
  mmssOfTotalSeconds (mathCeilDiv (ms + 999) 1000)

/-- Mirror of the timer state object built in createTimer. The id stands
for the identity of the cloned DOM element; the element, pathElement and
timeDisplayElement handles are all keyed by it in the event model. -/
structure TimerObj where
  id : ℕ
  name : String
  endTime : ℤ
  totalDuration : ℤ
  isFinished : Bool
  isPaused : Bool
  timeRemainingWhenPaused : ℤ
  deriving Repr, DecidableEq

/-- Observable side effects the script dispatches to its collaborators:
ring updates (the DOM stroke-dashoffset is CIRCUMFERENCE * (1 - fraction),
so the event carries the fraction), time-display text updates, the finished
visual marker, the beep, and the log append. Every event is attributed to
the id of the record whose processing emitted it. -/
inductive Event where
  | setRingFraction (id : ℕ) (fraction : ℚ)
  | setDisplay (id : ℕ) (text : String)
  | addFinishedClass (id : ℕ)
  | beep (id : ℕ)
  | logAppend (id : ℕ) (name : String) (totalDuration : ℤ)
  deriving Repr, DecidableEq

/-- Identity of the record an event concerns. -/
def Event.idOf : Event → ℕ
  | .setRingFraction i _ => i
  | .setDisplay i _ => i
  | .addFinishedClass i => i
  | .beep i => i
  | .logAppend i _ _ => i

/-- Mirror of togglePause in src/script.js: flip isPaused; when the flip
pauses, store endTime - now in timeRemainingWhenPaused; when the flip
resumes, set endTime = now + timeRemainingWhenPaused. The loop restart in
the resume branch lives at the state level, in clickTogglePause. -/
def togglePause (now : ℤ) (timerObj : TimerObj) : TimerObj :=
  let t := { timerObj with isPaused := !timerObj.isPaused }
  if t.isPaused then
    { t with timeRemainingWhenPaused := t.endTime - now }
  else
    { t with endTime := now + t.timeRemainingWhenPaused }

/-- One iteration of the for loop in updateAllTimers for a single record:
the updated record, the events it emits, and its contribution to the
hasActiveTimers flag. -/
def updateTimer (now : ℤ) (timer : TimerObj) : TimerObj × List Event × Bool :=
  if timer.isFinished || timer.isPaused then
    (timer, [], !timer.isFinished)
  else
    let timeRemaining := timer.endTime - now
    if timeRemaining ≤ 0 then
      ({ timer with isFinished := true },
       [Event.setRingFraction timer.id 0,
        Event.setDisplay timer.id "Done!",
        Event.addFinishedClass timer.id,
        Event.beep timer.id,
        Event.logAppend timer.id timer.name timer.totalDuration],
       false)
    else
      (timer,
       [Event.setRingFraction timer.id ((timeRemaining : ℚ) / (timer.totalDuration : ℚ)),
        Event.setDisplay timer.id (formatTime timeRemaining)],
       true)

/-- Result of one pass of the for loop in updateAllTimers over the whole
registry. -/
structure TickResult where
  timers : List TimerObj
  events : List Event
  hasActiveTimers : Bool
  deriving Repr, DecidableEq

/-- The for loop of updateAllTimers: every record is processed with the one
shared now, in registry order. -/
def updateAllTimersCore (now : ℤ) : List TimerObj → TickResult
  | [] => ⟨[], [], false⟩
  | timer :: rest =>
    let u := updateTimer now timer
    let r := updateAllTimersCore now rest
    ⟨u.1 :: r.timers, u.2.1 ++ r.events, u.2.2 || r.hasActiveTimers⟩

/-- Module level mutable state of the script, together with the number of
callbacks currently scheduled with requestAnimationFrame (pending). -/
structure AppState where
  activeTimers : List TimerObj
  isAnimationLoopRunning : Bool
  pending : ℕ
  deriving Repr, DecidableEq

/-- The state before any event handler has run. -/
def initialState : AppState :=
  { activeTimers := [], isAnimationLoopRunning := false, pending := 0 }

/-- Mirror of startAnimationLoop: set the flag and schedule one callback
with requestAnimationFrame. -/
def startAnimationLoop (s : AppState) : AppState :=
  { s with isAnimationLoopRunning := true, pending := s.pending + 1 }

/-- Mirror of createTimer: build the record with endTime = now +
totalDurationMs, push it, emit the initial display text and the full ring,
then start the loop when it is not already running. The source computes
totalDurationMs as durationInMinutes * 60 * 1000 from the pre-validated
form value; the embedding takes the resulting millisecond duration as the
parameter. The fresh id stands for the newly cloned DOM element. -/
def createTimer (name : String) (totalDurationMs : ℤ) (now : ℤ) (freshId : ℕ)
    (s : AppState) : AppState × List Event :=
  let endTime := now + totalDurationMs
  let timerObj : TimerObj :=
    { id := freshId, name := name, endTime := endTime,
      totalDuration := totalDurationMs, isFinished := false, isPaused := false,
      timeRemainingWhenPaused := 0 }
  let s1 : AppState := { s with activeTimers := s.activeTimers ++ [timerObj] }
  let s2 := if s1.isAnimationLoopRunning then s1 else startAnimationLoop s1
  (s2, [Event.setDisplay freshId (formatTime totalDurationMs),
        Event.setRingFraction freshId 1])

/-- Mirror of updateAllTimers as a scheduled callback: consume one pending
callback, process every record with one shared now, then either schedule
the next tick or mark the loop idle. -/
def tick (now : ℤ) (s : AppState) : AppState × List Event :=
  let r := updateAllTimersCore now s.activeTimers
  if r.hasActiveTimers then
    ({ activeTimers := r.timers, isAnimationLoopRunning := s.isAnimationLoopRunning,
       pending := s.pending - 1 + 1 }, r.events)
  else
    ({ activeTimers := r.timers, isAnimationLoopRunning := false,
       pending := s.pending - 1 }, r.events)

/-- Replacement of the first list entry satisfying p, mirroring a mutation
through the reference returned by Array.prototype.find. -/
def updateFirst (p : TimerObj → Bool) (f : TimerObj → TimerObj) :
    List TimerObj → List TimerObj
  | [] => []
  | x :: xs => if p x then f x :: xs else x :: updateFirst p f xs

/-- Mirror of the click handler branch for the pause and resume button:
a no-op when no record matches the clicked element or the record is
finished; otherwise togglePause on the found record, and on resume the
loop is started when it is not already running. -/
def clickTogglePause (now : ℤ) (i : ℕ) (s : AppState) : AppState :=
  match s.activeTimers.find? (fun t => t.id == i) with
  | none => s
  | some timerObj =>
    if timerObj.isFinished then s
    else
      let t := togglePause now timerObj
      let s1 : AppState :=
        { s with activeTimers := updateFirst (fun x => x.id == i) (fun _ => t) s.activeTimers }
      if t.isPaused then s1
      else if s1.isAnimationLoopRunning then s1 else startAnimationLoop s1

/-- Mirror of the click handler branch for the delete button together with
removeTimer: a no-op when no record matches the clicked element, otherwise
the first matching record is removed (findIndex and splice). -/
def clickRemove (i : ℕ) (s : AppState) : AppState :=
  match s.activeTimers.find? (fun t => t.id == i) with
  | none => s
  | some _ =>
    { s with activeTimers := s.activeTimers.eraseP (fun t => t.id == i) }

/-- Public interface invocations: the scheduled animation callback, the
form submission (createTimer), and the two click handler branches. -/
inductive Op where
  | tickAt (now : ℤ)
  | create (name : String) (totalDurationMs : ℤ) (now : ℤ) (freshId : ℕ)
  | toggle (i : ℕ) (now : ℤ)
  | remove (i : ℕ)
  deriving Repr, DecidableEq

/-- Single invocation at the public interface. A tick can only fire while a
callback is pending. -/
def step (op : Op) (s : AppState) : AppState × List Event :=
  match op with
  | .tickAt now => if s.pending = 0 then (s, []) else tick now s
  | .create name d now fid => createTimer name d now fid s
  | .toggle i now => (clickTogglePause now i s, [])
  | .remove i => (clickRemove i s, [])

/-- Sequential invocations at the public interface, with the emitted events
accumulated in order. -/
def run (ops : List Op) (s : AppState) : AppState × List Event :=
  match ops with
  | [] => (s, [])
  | op :: rest =>
    let p := step op s
    let q := run rest p.1
    (q.1, p.2 ++ q.2)

/-- Status Running of the spec data model: neither finished nor paused. -/
def isRunning (t : TimerObj) : Bool :=
  !t.isFinished && !t.isPaused

/-- Record identity i is Finished in state s: every record carrying id i
has isFinished set. -/
def FinishedAt (i : ℕ) (s : AppState) : Prop :=
  ∀ t ∈ s.activeTimers, t.id = i → t.isFinished = true

instance (i : ℕ) (s : AppState) : Decidable (FinishedAt i s) := by
  unfold FinishedAt; infer_instance

/-- Whether an operation creates a record under identity i. -/
def opCreatesId (i : ℕ) : Op → Bool
  | .create _ _ _ fid => fid == i
  | _ => false

/-- The scheduler control invariant: exactly one callback is pending while
the loop flag is set, none while it is idle. -/
def loopInv (s : AppState) : Prop :=
  s.pending = if s.isAnimationLoopRunning then 1 else 0

instance (s : AppState) : Decidable (loopInv s) := by
  unfold loopInv; infer_instance

/-- Whether an event is the beep attributed to record i. -/
def isBeepFor (i : ℕ) : Event → Bool
  | .beep j => j == i
  | _ => false

/-- Whether an event is the log append attributed to record i. -/
def isLogFor (i : ℕ) : Event → Bool
  | .logAppend j _ _ => j == i
  | _ => false

/-- Whether a record carries id i and crosses its deadline at this tick:
not finished, not paused, and endTime - now ≤ 0. -/
def finishesAt (now : ℤ) (i : ℕ) (t : TimerObj) : Bool :=
  t.id == i && !t.isFinished && !t.isPaused && decide (t.endTime - now ≤ 0)

/-- A paused, unfinished record: deadline 1000, paused with 500 ms left. -/
def pausedOnlyRecord : TimerObj :=
  { id := 0, name := "p", endTime := 1000, totalDuration := 1000,
    isFinished := false, isPaused := true, timeRemainingWhenPaused := 500 }

/-- A state whose registry holds only pausedOnlyRecord, with the loop
active and one callback pending. -/
def pausedOnlyState : AppState :=
  { activeTimers := [pausedOnlyRecord], isAnimationLoopRunning := true, pending := 1 }

/-- A running record with its full 10000 ms still ahead of a clock at 0. -/
def runningRecord : TimerObj :=
  { id := 0, name := "r", endTime := 10000, totalDuration := 10000,
    isFinished := false, isPaused := false, timeRemainingWhenPaused := 0 }

/-- A running record whose deadline 100 already lies in the past of a
clock reading 150. -/
def overdueRecord : TimerObj :=
  { id := 4, name := "late", endTime := 100, totalDuration := 60000,
    isFinished := false, isPaused := false, timeRemainingWhenPaused := 0 }

/-- A record that has already finished. -/
def finishedRecord : TimerObj :=
  { id := 3, name := "done", endTime := 0, totalDuration := 1000,
    isFinished := true, isPaused := false, timeRemainingWhenPaused := 0 }

/-- An idle state whose registry holds only finishedRecord. -/
def finishedOnlyState : AppState :=
  { activeTimers := [finishedRecord], isAnimationLoopRunning := false, pending := 0 }

/-- A sample batch of later operations touching identity 3 and creating a
fresh record under identity 7. -/
def laterOps : List Op :=
  [Op.create "x" 2000 5 7, Op.tickAt 6, Op.toggle 3 8, Op.remove 3, Op.tickAt 9]

/-- Two distinct running records under identities 1 and 2. -/
def recordOne : TimerObj :=
  { id := 1, name := "one", endTime := 3000, totalDuration := 3000,
    isFinished := false, isPaused := false, timeRemainingWhenPaused := 0 }

def recordTwo : TimerObj :=
  { id := 2, name := "two", endTime := 4000, totalDuration := 4000,
    isFinished := false, isPaused := false, timeRemainingWhenPaused := 0 }

/-- A state holding recordOne and recordTwo with the loop active. -/
def twoTimersState : AppState :=
  { activeTimers := [recordOne, recordTwo], isAnimationLoopRunning := true, pending := 1 }

/-- The record a createTimer call with label a, duration 60000 ms, clock 0
and fresh identity 0 pushes. -/
def timerShort : TimerObj :=
  { id := 0, name := "a", endTime := 0 + 60000, totalDuration := 60000,
    isFinished := false, isPaused := false, timeRemainingWhenPaused := 0 }

/-- The record a createTimer call with label b, duration 120000 ms, clock 0
and fresh identity 1 pushes. -/
def timerLong : TimerObj :=
  { id := 1, name := "b", endTime := 0 + 120000, totalDuration := 120000,
    isFinished := false, isPaused := false, timeRemainingWhenPaused := 0 }

/-! Helper lemmas about the embedded operations. -/

lemma mathCeilDiv_eq_ceil (a b : ℤ) (hb : 0 < b) :
    mathCeilDiv a b = ⌈(a : ℚ) / (b : ℚ)⌉ := by
  have hq := Int.ediv_add_emod (a + b - 1) b
  have h2 := Int.emod_nonneg (a + b - 1) (ne_of_gt hb)
  have h3 := Int.emod_lt_of_pos (a + b - 1) hb
  set q : ℤ := (a + b - 1) / b with hqdef
  have hup : a ≤ b * q := by linarith
  have hlo : b * q - b < a := by linarith
  have hbQ : (0:ℚ) < (b : ℚ) := by exact_mod_cast hb
  rw [mathCeilDiv, Int.fdiv_eq_ediv _ (le_of_lt hb), ← hqdef]
  symm
  rw [Int.ceil_eq_iff]
  constructor
  · rw [lt_div_iff₀ hbQ]
    have hcast : ((q : ℚ) - 1) * (b : ℚ) = ((b * q - b : ℤ) : ℚ) := by push_cast; ring
    rw [hcast]
    exact_mod_cast hlo
  · rw [div_le_iff₀ hbQ]
    have hcast : (q : ℚ) * (b : ℚ) = ((b * q : ℤ) : ℚ) := by push_cast; ring
    rw [hcast]
    exact_mod_cast hup

lemma mathCeilDiv_add999 (ms : ℕ) :
    mathCeilDiv ((ms : ℤ) + 999) 1000
      = ((ms / 1000 + if ms % 1000 = 0 ∨ ms % 1000 = 1 then 1 else 2 : ℕ) : ℤ) := by
  rw [mathCeilDiv, Int.fdiv_eq_ediv _ (by norm_num)]
  by_cases h : ms % 1000 = 0 ∨ ms % 1000 = 1
  · rw [if_pos h]
    rcases h with h | h <;> omega
  · rw [if_neg h]
    simp only [not_or] at h
    omega

lemma togglePause_id (now : ℤ) (t : TimerObj) : (togglePause now t).id = t.id := by
  cases h : t.isPaused <;> simp [togglePause, h]

lemma togglePause_isPaused (now : ℤ) (t : TimerObj) :
    (togglePause now t).isPaused = !t.isPaused := by
  cases h : t.isPaused <;> simp [togglePause, h]

lemma updateTimer_eq_of_finished (now : ℤ) (t : TimerObj) (h : t.isFinished = true) :
    updateTimer now t = (t, [], false) := by
  simp [updateTimer, h]

lemma updateTimer_eq_of_paused (now : ℤ) (t : TimerObj) (hf : t.isFinished = false)
    (hp : t.isPaused = true) :
    updateTimer now t = (t, [], true) := by
  simp [updateTimer, hf, hp]

lemma updateTimer_eq_of_expired (now : ℤ) (t : TimerObj) (hf : t.isFinished = false)
    (hp : t.isPaused = false) (h : t.endTime - now ≤ 0) :
    updateTimer now t =
      ({ t with isFinished := true },
       [Event.setRingFraction t.id 0,
        Event.setDisplay t.id "Done!",
        Event.addFinishedClass t.id,
        Event.beep t.id,
        Event.logAppend t.id t.name t.totalDuration],
       false) := by
  simp [updateTimer, hf, hp, h]

lemma updateTimer_eq_of_live (now : ℤ) (t : TimerObj) (hf : t.isFinished = false)
    (hp : t.isPaused = false) (h : 0 < t.endTime - now) :
    updateTimer now t =
      (t,
       [Event.setRingFraction t.id ((t.endTime - now : ℤ) / (t.totalDuration : ℚ)),
        Event.setDisplay t.id (formatTime (t.endTime - now))],
       true) := by
  simp [updateTimer, hf, hp, not_le.mpr h]

lemma updateTimer_fst_id (now : ℤ) (t : TimerObj) : (updateTimer now t).1.id = t.id := by
  cases hf : t.isFinished
  · cases hp : t.isPaused
    · rcases le_or_lt (t.endTime - now) 0 with h | h
      · rw [updateTimer_eq_of_expired now t hf hp h]
      · rw [updateTimer_eq_of_live now t hf hp h]
    · rw [updateTimer_eq_of_paused now t hf hp]
  · rw [updateTimer_eq_of_finished now t hf]

lemma updateTimer_active_eq (now : ℤ) (t : TimerObj) :
    (updateTimer now t).2.2 = !(updateTimer now t).1.isFinished := by
  cases hf : t.isFinished
  · cases hp : t.isPaused
    · rcases le_or_lt (t.endTime - now) 0 with h | h
      · rw [updateTimer_eq_of_expired now t hf hp h]; rfl
      · rw [updateTimer_eq_of_live now t hf hp h]; simp [hf]
    · rw [updateTimer_eq_of_paused now t hf hp]; simp [hf]
  · rw [updateTimer_eq_of_finished now t hf]; simp [hf]

lemma updateTimer_events_idOf (now : ℤ) (t : TimerObj) :
    ∀ e ∈ (updateTimer now t).2.1, e.idOf = t.id := by
  cases hf : t.isFinished
  · cases hp : t.isPaused
    · rcases le_or_lt (t.endTime - now) 0 with h | h
      · rw [updateTimer_eq_of_expired now t hf hp h]
        intro e he
        simp only [List.mem_cons, List.not_mem_nil, or_false] at he
        rcases he with rfl | rfl | rfl | rfl | rfl <;> rfl
      · rw [updateTimer_eq_of_live now t hf hp h]
        intro e he
        simp only [List.mem_cons, List.not_mem_nil, or_false] at he
        rcases he with rfl | rfl <;> rfl
    · rw [updateTimer_eq_of_paused now t hf hp]; intro e he; simp at he
  · rw [updateTimer_eq_of_finished now t hf]; intro e he; simp at he

lemma updateTimer_preserves_finished (now : ℤ) (t : TimerObj) (h : t.isFinished = true) :
    (updateTimer now t).1.isFinished = true := by
  rw [updateTimer_eq_of_finished now t h]; exact h

lemma core_hasActive_eq_any (now : ℤ) (ts : List TimerObj) :
    (updateAllTimersCore now ts).hasActiveTimers
      = (updateAllTimersCore now ts).timers.any (fun t => !t.isFinished) := by
  induction ts with
  | nil => rfl
  | cons t rest ih =>
    simp only [updateAllTimersCore, List.any_cons]
    rw [updateTimer_active_eq, ih]

lemma core_finishedAt (now : ℤ) (i : ℕ) (ts : List TimerObj)
    (h : ∀ t ∈ ts, t.id = i → t.isFinished = true) :
    (∀ t ∈ (updateAllTimersCore now ts).timers, t.id = i → t.isFinished = true)
    ∧ (∀ e ∈ (updateAllTimersCore now ts).events, e.idOf ≠ i) := by
  induction ts with
  | nil => exact ⟨by intro t ht; simp [updateAllTimersCore] at ht,
                 by intro e he; simp [updateAllTimersCore] at he⟩
  | cons t rest ih =>
    have hrest := ih (fun x hx => h x (List.mem_cons_of_mem t hx))
    have hhead := h t (List.mem_cons_self t rest)
    constructor
    · intro x hx hxi
      simp only [updateAllTimersCore, List.mem_cons] at hx
      rcases hx with rfl | hx
      · by_cases hid : t.id = i
        · exact updateTimer_preserves_finished now t (hhead hid) |>.symm ▸
            (updateTimer_preserves_finished now t (hhead hid))
        · exact absurd (updateTimer_fst_id now t ▸ hxi) hid
      · exact hrest.1 x hx hxi
    · intro e he
      simp only [updateAllTimersCore, List.mem_append] at he
      rcases he with he | he
      · intro hei
        have := updateTimer_events_idOf now t e he
        by_cases hid : t.id = i
        · have hfin := hhead hid
          rw [updateTimer_eq_of_finished now t hfin] at he
          simp at he
        · exact hid (this ▸ hei)
      · exact hrest.2 e he

lemma updateFirst_cons (p : TimerObj → Bool) (f : TimerObj → TimerObj)
    (x : TimerObj) (xs : List TimerObj) :
    updateFirst p f (x :: xs) = if p x then f x :: xs else x :: updateFirst p f xs := rfl

lemma mem_updateFirst (p : TimerObj → Bool) (f : TimerObj → TimerObj)
    (l : List TimerObj) :
    ∀ y ∈ updateFirst p f l, y ∈ l ∨ ∃ x ∈ l, p x = true ∧ y = f x := by
  induction l with
  | nil => intro y hy; simp [updateFirst] at hy
  | cons x xs ih =>
    intro y hy
    rw [updateFirst_cons] at hy
    by_cases hx : p x = true
    · rw [if_pos hx] at hy
      rcases List.mem_cons.mp hy with rfl | hy
      · exact Or.inr ⟨x, List.mem_cons_self x xs, hx, rfl⟩
      · exact Or.inl (List.mem_cons_of_mem x hy)
    · rw [if_neg hx] at hy
      rcases List.mem_cons.mp hy with rfl | hy
      · exact Or.inl (List.mem_cons_self y xs)
      · rcases ih y hy with h | ⟨z, hz, hpz, hyz⟩
        · exact Or.inl (List.mem_cons_of_mem x h)
        · exact Or.inr ⟨z, List.mem_cons_of_mem x hz, hpz, hyz⟩

lemma eraseP_id_not_mem (i : ℕ) (l : List TimerObj)
    (h : (l.map (fun t => t.id)).Nodup) :
    ∀ t ∈ l.eraseP (fun t => t.id == i), (t.id == i) = false := by
  induction l with
  | nil => intro t ht; simp at ht
  | cons x xs ih =>
    simp only [List.map_cons, List.nodup_cons] at h
    intro t ht
    simp only [List.eraseP_cons] at ht
    cases hx : (x.id == i) with
    | true =>
      simp only [hx, cond_true] at ht
      have hxi : x.id = i := by simpa using hx
      have hne : t.id ≠ x.id := by
        intro hti
        exact h.1 (hti ▸ List.mem_map_of_mem (fun t => t.id) ht)
      rw [hxi] at hne
      simpa using hne
    | false =>
      simp only [hx, cond_false] at ht
      rcases List.mem_cons.mp ht with rfl | ht
      · exact hx
      · exact ih h.2 t ht

lemma startAnimationLoop_activeTimers (s : AppState) :
    (startAnimationLoop s).activeTimers = s.activeTimers := rfl

lemma createTimer_fst_running (name : String) (d now : ℤ) (fid : ℕ) (s : AppState) :
    ((createTimer name d now fid s).1).isAnimationLoopRunning = true := by
  by_cases hr : s.isAnimationLoopRunning = true <;>
    simp [createTimer, startAnimationLoop, hr]

lemma clickTogglePause_resume_running (now : ℤ) (i : ℕ) (s : AppState) (t0 : TimerObj)
    (hfind : s.activeTimers.find? (fun t => t.id == i) = some t0)
    (hfin : t0.isFinished = false) (hp : t0.isPaused = true) :
    (clickTogglePause now i s).isAnimationLoopRunning = true := by
  have hres : (togglePause now t0).isPaused = false := by
    rw [togglePause_isPaused, hp]; rfl
  by_cases hr : s.isAnimationLoopRunning = true <;>
    simp [clickTogglePause, hfind, hfin, hres, startAnimationLoop, hr]

lemma loopInv_step (op : Op) (s : AppState) (h : loopInv s) : loopInv (step op s).1 := by
  cases op with
  | tickAt now =>
    by_cases h0 : s.pending = 0
    · simpa [step, h0] using h
    · have hrun : s.isAnimationLoopRunning = true := by
        by_contra hf
        rw [loopInv, if_neg hf] at h
        exact h0 h
      have hp : s.pending = 1 := by
        rw [loopInv, if_pos hrun] at h; exact h
      by_cases hact : (updateAllTimersCore now s.activeTimers).hasActiveTimers = true <;>
        simp [step, h0, tick, hact, loopInv, hrun, hp]
  | create name d now fid =>
    by_cases hr : s.isAnimationLoopRunning = true
    · have hp : s.pending = 1 := by rw [loopInv, if_pos hr] at h; exact h
      simp [step, createTimer, startAnimationLoop, hr, loopInv, hp]
    · have hp : s.pending = 0 := by rw [loopInv, if_neg hr] at h; exact h
      simp [step, createTimer, startAnimationLoop, hr, loopInv, hp]
  | toggle i now =>
    cases hfind : s.activeTimers.find? (fun t => t.id == i) with
    | none => simpa [step, clickTogglePause, hfind] using h
    | some t0 =>
      by_cases hfin : t0.isFinished = true
      · simpa [step, clickTogglePause, hfind, hfin] using h
      · by_cases hps : (togglePause now t0).isPaused = true
        · simp only [step, clickTogglePause, hfind]
          rw [if_neg hfin, if_pos hps]
          simpa [loopInv] using h
        · by_cases hr : s.isAnimationLoopRunning = true
          · have hp : s.pending = 1 := by rw [loopInv, if_pos hr] at h; exact h
            simp [step, clickTogglePause, hfind, hfin, hps, startAnimationLoop,
              hr, loopInv, hp]
          · have hp : s.pending = 0 := by rw [loopInv, if_neg hr] at h; exact h
            simp [step, clickTogglePause, hfind, hfin, hps, startAnimationLoop,
              hr, loopInv, hp]
  | remove i =>
    cases hfind : s.activeTimers.find? (fun t => t.id == i) with
    | none => simpa [step, clickRemove, hfind] using h
    | some t0 => simpa [step, clickRemove, hfind, loopInv] using h

lemma step_finishedAt (i : ℕ) (op : Op) (s : AppState) (h : FinishedAt i s)
    (hop : opCreatesId i op = false) :
    FinishedAt i (step op s).1 ∧ ∀ e ∈ (step op s).2, e.idOf ≠ i := by
  cases op with
  | tickAt now =>
    by_cases h0 : s.pending = 0
    · exact ⟨by simpa [step, h0] using h, by simp [step, h0]⟩
    · have hcore := core_finishedAt now i s.activeTimers h
      by_cases hact : (updateAllTimersCore now s.activeTimers).hasActiveTimers = true <;>
        exact ⟨by simpa [step, h0, tick, hact, FinishedAt] using hcore.1,
               by simpa [step, h0, tick, hact] using hcore.2⟩
  | create name d now fid =>
    have hfid : fid ≠ i := by simpa [opCreatesId] using hop
    constructor
    · intro t ht hti
      have hmem : t ∈ s.activeTimers ++
          [{ id := fid, name := name, endTime := now + d, totalDuration := d,
             isFinished := false, isPaused := false, timeRemainingWhenPaused := 0 }] := by
        by_cases hr : s.isAnimationLoopRunning = true <;>
          simpa [step, createTimer, startAnimationLoop, hr] using ht
      rcases List.mem_append.mp hmem with hmem | hmem
      · exact h t hmem hti
      · rcases List.mem_singleton.mp hmem with rfl
        exact absurd hti hfid
    · intro e he
      have : e = Event.setDisplay fid (formatTime d) ∨ e = Event.setRingFraction fid 1 := by
        simpa [step, createTimer] using he
      rcases this with rfl | rfl <;> simpa [Event.idOf] using hfid
  | toggle j now =>
    refine ⟨?_, by simp [step]⟩
    cases hfind : s.activeTimers.find? (fun t => t.id == j) with
    | none => simpa [step, clickTogglePause, hfind] using h
    | some t0 =>
      by_cases hfin : t0.isFinished = true
      · simpa [step, clickTogglePause, hfind, hfin] using h
      · have ht0mem : t0 ∈ s.activeTimers := List.mem_of_find?_eq_some hfind
        have ht0id : t0.id = j := by simpa using List.find?_some hfind
        have hji : j ≠ i := by
          intro hji
          exact hfin (h t0 ht0mem (ht0id.trans hji))
        have hupd : ∀ y ∈ updateFirst (fun x => x.id == j) (fun _ => togglePause now t0)
            s.activeTimers, y.id = i → y.isFinished = true := by
          intro y hy hyi
          rcases mem_updateFirst _ _ _ y hy with hy | ⟨x, _, _, rfl⟩
          · exact h y hy hyi
          · rw [togglePause_id, ht0id] at hyi
            exact absurd hyi hji
        by_cases hps : (togglePause now t0).isPaused = true
        · simp only [step, clickTogglePause, hfind]
          rw [if_neg hfin, if_pos hps]
          exact hupd
        · by_cases hr : s.isAnimationLoopRunning = true <;>
            · simp only [step, clickTogglePause, hfind]
              rw [if_neg hfin, if_neg hps]
              simpa [startAnimationLoop, hr] using hupd
  | remove j =>
    refine ⟨?_, by simp [step]⟩
    cases hfind : s.activeTimers.find? (fun t => t.id == j) with
    | none => simpa [step, clickRemove, hfind] using h
    | some t0 =>
      intro t ht hti
      have : t ∈ s.activeTimers.eraseP (fun t => t.id == j) := by
        simpa [step, clickRemove, hfind] using ht
      exact h t (List.mem_of_mem_eraseP this) hti

lemma run_finishedAt (i : ℕ) (ops : List Op) (s : AppState) (h : FinishedAt i s)
    (hops : ∀ op ∈ ops, opCreatesId i op = false) :
    FinishedAt i (run ops s).1 ∧ ∀ e ∈ (run ops s).2, e.idOf ≠ i := by
  induction ops generalizing s with
  | nil => exact ⟨h, by simp [run]⟩
  | cons op rest ih =>
    have hstep := step_finishedAt i op s h (hops op (List.mem_cons_self op rest))
    have hrest := ih (step op s).1 hstep.1
      (fun x hx => hops x (List.mem_cons_of_mem op hx))
    refine ⟨hrest.1, ?_⟩
    intro e he
    rcases List.mem_append.mp (by simpa [run] using he) with he | he
    · exact hstep.2 e he
    · exact hrest.2 e he

lemma updateTimer_countP_log (now : ℤ) (i : ℕ) (t : TimerObj) :
    (updateTimer now t).2.1.countP (isLogFor i)
      = if finishesAt now i t then 1 else 0 := by
  cases hf : t.isFinished
  · cases hp : t.isPaused
    · rcases le_or_lt (t.endTime - now) 0 with h | h
      · rw [updateTimer_eq_of_expired now t hf hp h]
        by_cases hid : (t.id == i) = true <;>
          simp [List.countP_cons, List.countP_nil, isLogFor, finishesAt, hf, hp, h, hid]
      · rw [updateTimer_eq_of_live now t hf hp h]
        simp [List.countP_cons, List.countP_nil, isLogFor, finishesAt, not_le.mpr h]
    · rw [updateTimer_eq_of_paused now t hf hp]
      simp [finishesAt, hp]
  · rw [updateTimer_eq_of_finished now t hf]
    simp [finishesAt, hf]

lemma updateTimer_countP_beep (now : ℤ) (i : ℕ) (t : TimerObj) :
    (updateTimer now t).2.1.countP (isBeepFor i)
      = if finishesAt now i t then 1 else 0 := by
  cases hf : t.isFinished
  · cases hp : t.isPaused
    · rcases le_or_lt (t.endTime - now) 0 with h | h
      · rw [updateTimer_eq_of_expired now t hf hp h]
        by_cases hid : (t.id == i) = true <;>
          simp [List.countP_cons, List.countP_nil, isBeepFor, finishesAt, hf, hp, h, hid]
      · rw [updateTimer_eq_of_live now t hf hp h]
        simp [List.countP_cons, List.countP_nil, isBeepFor, finishesAt, not_le.mpr h]
    · rw [updateTimer_eq_of_paused now t hf hp]
      simp [finishesAt, hp]
  · rw [updateTimer_eq_of_finished now t hf]
    simp [finishesAt, hf]

lemma core_countP_log (now : ℤ) (i : ℕ) (ts : List TimerObj) :
    (updateAllTimersCore now ts).events.countP (isLogFor i)
      = ts.countP (finishesAt now i) := by
  induction ts with
  | nil => rfl
  | cons t rest ih =>
    simp only [updateAllTimersCore, List.countP_append, List.countP_cons]
    rw [updateTimer_countP_log, ih]
    by_cases hfin : finishesAt now i t = true
    · simp [hfin]; omega
    · simp [hfin]

lemma core_countP_beep (now : ℤ) (i : ℕ) (ts : List TimerObj) :
    (updateAllTimersCore now ts).events.countP (isBeepFor i)
      = ts.countP (finishesAt now i) := by
  induction ts with
  | nil => rfl
  | cons t rest ih =>
    simp only [updateAllTimersCore, List.countP_append, List.countP_cons]
    rw [updateTimer_countP_beep, ih]
    by_cases hfin : finishesAt now i t = true
    · simp [hfin]; omega
    · simp [hfin]

/-! Claim theorems. -/

/-- C1: the spec formatting rule, add 999 then divide by 1000 and truncate,
requires the display of a remaining time of 4999 ms (a 5000 ms timer read
one millisecond after creation) to be 00:05; the formatTime of the code
instead applies Math.ceil on top of the already added 999 and renders
00:06 at that input. -/
theorem claim_C1_formatTime_divergence :
    formatTime 4999 = "00:06" ∧ formatTime 4999 ≠ "00:05" :=
  ⟨by decide, by decide⟩

/-- C2 counterexample: a registry holding only a paused, unfinished record
has no Running record, yet the tick keeps the loop flag set and schedules a
next callback instead of stopping and becoming idle. -/
theorem claim_C2_counterexample :
    pausedOnlyRecord.isPaused = true
    ∧ pausedOnlyRecord.isFinished = false
    ∧ isRunning pausedOnlyRecord = false
    ∧ (step (Op.tickAt 0) pausedOnlyState).1.isAnimationLoopRunning = true
    ∧ (step (Op.tickAt 0) pausedOnlyState).1.pending = 1 := by
  refine ⟨rfl, rfl, rfl, ?_, ?_⟩ <;> decide

/-- C2 amended: after a scheduled tick processes all records, a next tick
is scheduled and the loop stays marked active iff at least one record is
not Finished after the tick (Running or Paused); a registry left with only
Finished records, or empty, stops the loop and marks it idle. -/
theorem claim_C2_amended (now : ℤ) (s : AppState) (h : loopInv s)
    (hp : 0 < s.pending) :
    (step (Op.tickAt now) s).1.isAnimationLoopRunning
      = (step (Op.tickAt now) s).1.activeTimers.any (fun t => !t.isFinished)
    ∧ (step (Op.tickAt now) s).1.pending
      = (if (step (Op.tickAt now) s).1.activeTimers.any (fun t => !t.isFinished)
         then 1 else 0) := by
  have h0 : ¬ s.pending = 0 := by omega
  have hrun : s.isAnimationLoopRunning = true := by
    by_contra hf
    rw [loopInv, if_neg hf] at h
    omega
  have hp1 : s.pending = 1 := by rw [loopInv, if_pos hrun] at h; exact h
  have hany := core_hasActive_eq_any now s.activeTimers
  by_cases hact : (updateAllTimersCore now s.activeTimers).hasActiveTimers = true
  · rw [hact] at hany
    constructor <;> simp [step, h0, tick, hact, hrun, hp1, ← hany]
  · rw [eq_false_of_ne_true hact] at hany
    constructor <;> simp [step, h0, tick, hact, ← hany, hp1]

theorem claim_C2_amended_witness :
    loopInv pausedOnlyState ∧ 0 < pausedOnlyState.pending
    ∧ (step (Op.tickAt 0) pausedOnlyState).1.isAnimationLoopRunning
        = (step (Op.tickAt 0) pausedOnlyState).1.activeTimers.any (fun t => !t.isFinished) :=
  ⟨by decide, by decide, (claim_C2_amended 0 pausedOnlyState (by decide) (by decide)).1⟩

/-- C3 counterexample: togglePause is a toggle, not an idempotent pause:
pressing it on a running record pauses it, pressing it again resumes it,
so two presses in a row leave a different record state than one press. -/
theorem claim_C3_counterexample :
    (togglePause 0 runningRecord).isPaused = true
    ∧ (togglePause 5 (togglePause 0 runningRecord)).isPaused = false
    ∧ togglePause 5 (togglePause 0 runningRecord) ≠ togglePause 0 runningRecord := by
  refine ⟨rfl, rfl, ?_⟩
  decide

/-- C3 amended: applying the toggle operation to a record that is already
Paused is not a no-op: it resumes the record. For a record that starts
unpaused, the first toggle pauses it, and a second toggle at time t2 leaves
the record unpaused with deadline t2 plus the remaining time stored at the
first toggle (the stored snapshot itself stays behind), which differs from
the Paused state a single toggle produces. -/
theorem claim_C3_amended (t : TimerObj) (t1 t2 : ℤ) (h : t.isPaused = false) :
    (togglePause t1 t).isPaused = true
    ∧ togglePause t2 (togglePause t1 t)
        = { t with endTime := t2 + (t.endTime - t1),
                   timeRemainingWhenPaused := t.endTime - t1 } := by
  constructor
  · rw [togglePause_isPaused, h]; rfl
  · simp [togglePause, h]

theorem claim_C3_amended_witness :
    runningRecord.isPaused = false
    ∧ togglePause 5 (togglePause 0 runningRecord)
        = { runningRecord with endTime := 5 + (runningRecord.endTime - 0),
                               timeRemainingWhenPaused := runningRecord.endTime - 0 } :=
  ⟨by decide, (claim_C3_amended runningRecord 0 5 (by decide)).2⟩

/-- C4: Finished is terminal at the public interface: once every record
under an identity is Finished, any sequence of ticks, toggle requests and
removals that does not create a fresh record under that identity keeps the
identity Finished and emits no further event for it; and within a single
tick pass the beep and the log append attributed to an identity are emitted
exactly as many times as records under that identity cross their deadline
in that pass, so the completion side effects fire exactly once, at the
transition. -/
theorem claim_C4_finished_terminal :
    (∀ (s : AppState) (ops : List Op) (i : ℕ),
        FinishedAt i s → (∀ op ∈ ops, opCreatesId i op = false) →
        FinishedAt i (run ops s).1 ∧ ∀ e ∈ (run ops s).2, e.idOf ≠ i)
    ∧ (∀ (now : ℤ) (i : ℕ) (ts : List TimerObj),
        (updateAllTimersCore now ts).events.countP (isLogFor i)
            = ts.countP (finishesAt now i)
        ∧ (updateAllTimersCore now ts).events.countP (isBeepFor i)
            = ts.countP (finishesAt now i)) :=
  ⟨fun s ops i h hops => run_finishedAt i ops s h hops,
   fun now i ts => ⟨core_countP_log now i ts, core_countP_beep now i ts⟩⟩

theorem claim_C4_witness :
    FinishedAt 3 finishedOnlyState
    ∧ (∀ op ∈ laterOps, opCreatesId 3 op = false)
    ∧ FinishedAt 3 (run laterOps finishedOnlyState).1 :=
  ⟨by decide, by decide,
   (claim_C4_finished_terminal.1 finishedOnlyState laterOps 3 (by decide) (by decide)).1⟩

/-- C5: pause and resume round-trip preserves remaining time: a running
record created at t0 (deadline t0 + totalDuration) and paused at elapsed
time e, with r = totalDuration - e ≥ 0 remaining, resumed at any later
clock reading now2, gets deadline now2 + r, so its remaining time at the
instant of resume is r however long it stayed paused. -/
theorem claim_C5_pause_resume_roundtrip (t : TimerObj) (t0 e r now2 : ℤ)
    (hrun : isRunning t = true)
    (hEnd : t.endTime = t0 + t.totalDuration)
    (hr : r = t.totalDuration - e)
    (_hr0 : 0 ≤ r)
    (_hlater : t0 + e ≤ now2) :
    (togglePause now2 (togglePause (t0 + e) t)).endTime = now2 + r
    ∧ (togglePause now2 (togglePause (t0 + e) t)).endTime - now2 = r
    ∧ (togglePause now2 (togglePause (t0 + e) t)).isPaused = false := by
  have hp : t.isPaused = false := by
    simp only [isRunning, Bool.and_eq_true, Bool.not_eq_true'] at hrun
    exact hrun.2
  have key : (togglePause now2 (togglePause (t0 + e) t)).endTime
      = now2 + (t.endTime - (t0 + e)) := by
    simp [togglePause, hp]
  refine ⟨?_, ?_, ?_⟩
  · rw [key, hEnd, hr]; ring
  · rw [key, hEnd, hr]; ring
  · simp [togglePause, hp]

theorem claim_C5_witness :
    isRunning runningRecord = true
    ∧ runningRecord.endTime = 0 + runningRecord.totalDuration
    ∧ (10000 : ℤ) = runningRecord.totalDuration - 0
    ∧ (0 : ℤ) ≤ 10000
    ∧ (0 : ℤ) + 0 ≤ 99999
    ∧ (togglePause 99999 (togglePause (0 + 0) runningRecord)).endTime - 99999 = 10000 :=
  ⟨by decide, by decide, by decide, by decide, by decide,
   (claim_C5_pause_resume_roundtrip runningRecord 0 0 10000 99999
     (by decide) (by decide) (by decide) (by decide) (by decide)).2.1⟩

/-- C6: requests carrying an identity no record holds are silent no-ops for
removal and for the pause and resume toggle, and with distinct record
identities removing the same identity twice leaves the registry exactly as
removing it once. -/
theorem claim_C6_unknown_id_noop (s : AppState) (i : ℕ) (now : ℤ) :
    ((∀ t ∈ s.activeTimers, t.id ≠ i) →
      clickRemove i s = s ∧ clickTogglePause now i s = s)
    ∧ ((s.activeTimers.map (fun t => t.id)).Nodup →
      clickRemove i (clickRemove i s) = clickRemove i s) := by
  constructor
  · intro h
    have hfind : s.activeTimers.find? (fun t => t.id == i) = none := by
      rw [List.find?_eq_none]
      intro t ht
      simpa using h t ht
    exact ⟨by simp [clickRemove, hfind], by simp [clickTogglePause, hfind]⟩
  · intro hnodup
    cases hfind : s.activeTimers.find? (fun t => t.id == i) with
    | none => simp [clickRemove, hfind]
    | some t0 =>
      have h1 : clickRemove i s
          = { s with activeTimers := s.activeTimers.eraseP (fun t => t.id == i) } := by
        simp [clickRemove, hfind]
      rw [h1]
      have hfind2 : (s.activeTimers.eraseP (fun t => t.id == i)).find?
          (fun t => t.id == i) = none := by
        rw [List.find?_eq_none]
        intro t ht
        simp [eraseP_id_not_mem i s.activeTimers hnodup t ht]
      simp [clickRemove, hfind2]

theorem claim_C6_witness :
    (∀ t ∈ twoTimersState.activeTimers, t.id ≠ 5)
    ∧ (clickRemove 5 twoTimersState = twoTimersState
       ∧ clickTogglePause 0 5 twoTimersState = twoTimersState)
    ∧ (twoTimersState.activeTimers.map (fun t => t.id)).Nodup
    ∧ clickRemove 1 (clickRemove 1 twoTimersState) = clickRemove 1 twoTimersState :=
  ⟨by decide, (claim_C6_unknown_id_noop twoTimersState 5 0).1 (by decide),
   by decide, (claim_C6_unknown_id_noop twoTimersState 1 0).2 (by decide)⟩

/-- C7 counterexample: pausing a running record whose deadline 100 already
passed at clock reading 150 stores the negative remaining time -50; no
clamping to zero happens. -/
theorem claim_C7_counterexample :
    (togglePause 150 overdueRecord).timeRemainingWhenPaused = -50
    ∧ ¬ 0 ≤ (togglePause 150 overdueRecord).timeRemainingWhenPaused := by
  refine ⟨?_, ?_⟩ <;> decide

/-- C7 amended: pausing a running record at clock reading now stores
exactly deadline - now in remainingAtPauseMs, with no clamping: the stored
value is nonnegative iff the deadline has not yet passed, and is negative
whenever it has. -/
theorem claim_C7_amended (t : TimerObj) (now : ℤ) (h : t.isPaused = false) :
    (togglePause now t).timeRemainingWhenPaused = t.endTime - now
    ∧ (0 ≤ (togglePause now t).timeRemainingWhenPaused ↔ now ≤ t.endTime) := by
  have key : (togglePause now t).timeRemainingWhenPaused = t.endTime - now := by
    simp [togglePause, h]
  exact ⟨key, by rw [key]; exact sub_nonneg⟩

theorem claim_C7_amended_witness :
    overdueRecord.isPaused = false
    ∧ (togglePause 150 overdueRecord).timeRemainingWhenPaused
        = overdueRecord.endTime - 150 :=
  ⟨by decide, (claim_C7_amended overdueRecord 150 (by decide)).1⟩

/-- C8: the scheduler keeps at most one pending callback: every public
operation preserves the invariant that exactly one callback is pending
while the loop flag is set and none while it is idle, so a start request
while the loop is active never creates a second tick stream; and both
createTimer and a resume toggle leave the loop active. -/
theorem claim_C8_loop_control :
    (∀ (op : Op) (s : AppState), loopInv s → loopInv (step op s).1)
    ∧ (∀ (op : Op) (s : AppState), loopInv s → (step op s).1.pending ≤ 1)
    ∧ (∀ (name : String) (d now : ℤ) (fid : ℕ) (s : AppState),
        ((createTimer name d now fid s).1).isAnimationLoopRunning = true)
    ∧ (∀ (now : ℤ) (i : ℕ) (s : AppState) (t0 : TimerObj),
        s.activeTimers.find? (fun t => t.id == i) = some t0 →
        t0.isFinished = false → t0.isPaused = true →
        (clickTogglePause now i s).isAnimationLoopRunning = true) := by
  refine ⟨loopInv_step, ?_, createTimer_fst_running, clickTogglePause_resume_running⟩
  intro op s h
  have h2 := loopInv_step op s h
  rw [loopInv] at h2
  split at h2 <;> omega

theorem claim_C8_witness :
    loopInv initialState
    ∧ loopInv (step (Op.create "w" 5000 0 0) initialState).1
    ∧ pausedOnlyState.activeTimers.find? (fun t => t.id == 0) = some pausedOnlyRecord
    ∧ pausedOnlyRecord.isFinished = false
    ∧ pausedOnlyRecord.isPaused = true
    ∧ (clickTogglePause 7 0 pausedOnlyState).isAnimationLoopRunning = true :=
  ⟨by decide, claim_C8_loop_control.1 (Op.create "w" 5000 0 0) initialState (by decide),
   by decide, by decide, by decide,
   claim_C8_loop_control.2.2.2 7 0 pausedOnlyState pausedOnlyRecord
     (by decide) (by decide) (by decide)⟩

/-- C9: on a tick, a Running record with positive remaining time emits the
progress fraction remaining / totalDuration together with its formatted
display, and under the reachable bound remaining ≤ totalDuration the
fraction lies in the interval (0, 1]; in the concrete scenario, two timers
of 60000 ms and 120000 ms created at clock 0 and ticked at clock 60000
leave the first Finished and emit the fraction one half for the second. -/
theorem claim_C9_progress_fraction :
    (∀ (now : ℤ) (t : TimerObj), t.isFinished = false → t.isPaused = false →
        0 < t.endTime - now → t.endTime - now ≤ t.totalDuration →
        (updateTimer now t).2.1
          = [Event.setRingFraction t.id ((t.endTime - now : ℤ) / (t.totalDuration : ℚ)),
             Event.setDisplay t.id (formatTime (t.endTime - now))]
        ∧ 0 < ((t.endTime - now : ℤ) : ℚ) / ((t.totalDuration : ℤ) : ℚ)
        ∧ ((t.endTime - now : ℤ) : ℚ) / ((t.totalDuration : ℤ) : ℚ) ≤ 1)
    ∧ ((run [Op.create "a" 60000 0 0, Op.create "b" 120000 0 1] initialState).1.activeTimers
        = [timerShort, timerLong]
      ∧ (updateAllTimersCore 60000 [timerShort, timerLong]).timers.map
          (fun t => t.isFinished) = [true, false]
      ∧ Event.setRingFraction 1 (1/2)
          ∈ (updateAllTimersCore 60000 [timerShort, timerLong]).events) := by
  constructor
  · intro now t hf hp hlt hle
    have htot : (0:ℤ) < t.totalDuration := lt_of_lt_of_le hlt hle
    have htotQ : (0:ℚ) < ((t.totalDuration : ℤ) : ℚ) := by exact_mod_cast htot
    have hremQ : (0:ℚ) < ((t.endTime - now : ℤ) : ℚ) := by exact_mod_cast hlt
    refine ⟨?_, div_pos hremQ htotQ, ?_⟩
    · rw [updateTimer_eq_of_live now t hf hp hlt]
    · rw [div_le_one htotQ]
      exact_mod_cast hle
  · have hA := updateTimer_eq_of_expired 60000 timerShort rfl rfl (by decide)
    have hB := updateTimer_eq_of_live 60000 timerLong rfl rfl (by decide)
    have hfrac : ((timerLong.endTime - 60000 : ℤ) : ℚ)
        / ((timerLong.totalDuration : ℤ) : ℚ) = 1/2 := by
      norm_num [timerLong]
    refine ⟨by decide, by decide, ?_⟩
    · have hrw : Event.setRingFraction 1 (1/2)
          = Event.setRingFraction timerLong.id
              ((timerLong.endTime - 60000 : ℤ) / (timerLong.totalDuration : ℚ)) := by
        rw [hfrac]; rfl
      rw [hrw]
      simp [updateAllTimersCore, hA, hB]

theorem claim_C9_witness :
    timerLong.isFinished = false
    ∧ timerLong.isPaused = false
    ∧ 0 < timerLong.endTime - 60000
    ∧ timerLong.endTime - 60000 ≤ timerLong.totalDuration
    ∧ 0 < ((timerLong.endTime - 60000 : ℤ) : ℚ) / ((timerLong.totalDuration : ℤ) : ℚ) :=
  ⟨by decide, by decide, by decide, by decide,
   (claim_C9_progress_fraction.1 60000 timerLong rfl rfl (by decide) (by decide)).2.1⟩

/-- C10: formatTime renders ceil((ms + 999) / 1000) total seconds as MM:SS,
which for a nonnegative integer ms equals floor(ms / 1000) + 1 when
ms mod 1000 is 0 or 1 and floor(ms / 1000) + 2 otherwise; in particular a
newly created 60000 ms timer initially displays 01:01. -/
theorem claim_C10_format_rule :
    (∀ ms : ℕ, formatTime (ms : ℤ)
        = mmssOfTotalSeconds ⌈(((ms : ℤ) : ℚ) + 999) / 1000⌉)
    ∧ (∀ ms : ℕ, formatTime (ms : ℤ)
        = mmssOfTotalSeconds
            ((ms / 1000 + if ms % 1000 = 0 ∨ ms % 1000 = 1 then 1 else 2 : ℕ) : ℤ))
    ∧ formatTime 60000 = "01:01" := by
  refine ⟨?_, ?_, by decide⟩
  · intro ms
    rw [formatTime, mathCeilDiv_eq_ceil _ _ (by norm_num)]
    norm_num
  · intro ms
    rw [formatTime, mathCeilDiv_add999]

end VisualTimer
